import Mathlib

/-!
A shallow embedding of the bandwidth/latency-simulating channel in
src/src/lib.rs, together with proofs of its specified properties.

Modelling choices:

* A Rust monotonic clock reading (std::time::Instant) and a Duration are
  both modelled as exact rationals, in seconds.  The source converts the
  division (msg.len() as f64) / (bw as f64) through Duration::from_secs_f64;
  we keep the quotient exact and model only the panic of from_secs_f64 on a
  non-finite argument (see durationFromSecsF64Div).
* The smol unbounded channel shared by the Sender and the Receiver is made
  explicit: operations take the queue, a List (Instant x MessageData) of
  envelopes in FIFO order, and return the queue after the call, together
  with a flag telling whether the counterpart handle is still alive (the
  only way the channel operations can fail).
* Suspension is modelled by time values: send never suspends; recv returns
  the clock reading at which the call completes, where Timer::at(t) makes a
  call that runs at clock reading now complete at max now t (it returns
  immediately when t is already past).
* A panicking call returns none; a completed call returns some of its
  outcome (an Except for the Result) and the state after the call.
-/

/-- Represents data in an individual packet (Rust: type MessageData = Vec of u8). -/
abbrev MessageData := List (Fin 256)

/-- Measures bandwidth, in bytes / sec (Rust: type Bandwidth = u32; the u32
bound plays no role in any arithmetic below, so the value set is ℕ). -/
abbrev Bandwidth := ℕ

/-- A reading of the monotonic clock, in seconds since some fixed origin. -/
abbrev Instant := ℚ

/-- A span of time, in seconds.  Every duration the embedded code builds is
non-negative, as in Rust. -/
abbrev Duration := ℚ

/-- The one failure the channel surfaces (the boxed channel error in the
source): the counterpart handle has been discarded. -/
inductive LinkError where
  | linkClosed
  deriving DecidableEq, Repr

/-- The sender half: its bandwidth limit and the next time the channel will
be free to send data (fields bandwidth and next_time in the source).  The
producer handle of the channel is passed explicitly to send. -/
structure Sender where
  bandwidth : Option Bandwidth
  next_time : Instant
  deriving DecidableEq, Repr

/-- The receiver half: its latency (field latency in the source).  The
consumer handle of the channel is passed explicitly to recv. -/
structure Receiver where
  latency : Option Duration
  deriving DecidableEq, Repr

/-- Models Duration::from_secs_f64((len as f64) / (bw as f64)) for naturals
len and bw.  The f64 quotient of the two non-negative casts is finite
exactly when bw is nonzero: for bw = 0 it is infinite (len > 0) or NaN
(len = 0), and Duration::from_secs_f64 panics on a non-finite argument.  So
the conversion panics (none) iff bw = 0, and otherwise yields the quotient,
kept exact here, in seconds. -/
def durationFromSecsF64Div (len bw : ℕ) : Option Duration :=
  if bw = 0 then none else some ((len : ℚ) / (bw : ℚ))

/-- Sender::send from the source.  now is the reading Instant::now() takes
during the call; receiverAlive says whether the counterpart Receiver still
exists (self.chan.send fails exactly when it does not); queue is the content
of the unbounded channel before the call.  none models a panic; otherwise
the result of the call is returned with the sender and the queue after it. -/
def Sender.send (s : Sender) (now : Instant) (receiverAlive : Bool)
    (queue : List (Instant × MessageData)) (msg : MessageData) :
    Option (Except LinkError Unit × Sender × List (Instant × MessageData)) :=
  match (match s.bandwidth with
         | none => some ((0 : ℚ))
         | some bw => durationFromSecsF64Div msg.length bw) with
  | none => none
  | some transmission_delay =>
    let departure_time := max now s.next_time + transmission_delay
    if receiverAlive then
      some (Except.ok (), { s with next_time := departure_time },
            queue ++ [(departure_time, msg)])
    else
      some (Except.error LinkError.linkClosed, s, queue)

/-- Sender::with_bandwidth from the source: return a new sender with a
different bandwidth. -/
def Sender.with_bandwidth (s : Sender) (bandwidth : Bandwidth) : Sender :=
  { s with bandwidth := some bandwidth }

/-- Receiver::recv from the source.  now is the clock reading at which the
call starts; senderAlive says whether the counterpart Sender still exists.
self.chan.recv() yields the head envelope of the queue, fails once the
channel is closed and drained, and suspends with no outcome (modelled none)
while the queue is empty but the sender alive.  The Instant in a successful
result is the clock reading at which the call completes: Timer::at(time)
returns once the clock reaches time, immediately when time is already past. -/
def Receiver.recv (r : Receiver) (now : Instant) (senderAlive : Bool)
    (queue : List (Instant × MessageData)) :
    Option (Except LinkError (MessageData × Instant) × List (Instant × MessageData)) :=
  match queue with
  | [] =>
    if senderAlive then none
    else some (Except.error LinkError.linkClosed, [])
  | (time, msg) :: rest =>
    let time := match r.latency with
      | none => time
      | some l => time + l
    some (Except.ok (msg, max now time), rest)

/-- Receiver::with_latency from the source: create a new receiver with a set
amount of latency. -/
def Receiver.with_latency (r : Receiver) (latency : Duration) : Receiver :=
  { r with latency := some latency }

/-- channel() from the source: creates a delayed channel with no bandwidth
constraint and no latency.  now is the reading Instant::now() takes at
creation; the underlying queue starts empty. -/
def channel (now : Instant) : Sender × Receiver :=
  ({ bandwidth := none, next_time := now }, { latency := none })

/-- The transmission delay exactly as the specification text states it:
zero when bandwidth is unset, size divided by bandwidth (in seconds) when it
is set.  This is the spec-side formula, to be compared with what
Sender.send, embedded from the source, computes. -/
def specTransmissionDelay (bandwidth : Option Bandwidth) (size : ℕ) : ℚ :=
  match bandwidth with
  | none => 0
  | some bw => (size : ℚ) / (bw : ℚ)

/-- The arrival time exactly as the specification text states it: the
envelope's scheduled time plus the latency when set, plus zero when unset. -/
def specArrival (latency : Option Duration) (scheduled : Instant) : Instant :=
  scheduled + (match latency with
               | none => 0
               | some l => l)

/-- Iterated Sender::send with the receiver alive: one call per element of
sends, each element pairing the clock reading Instant::now() observed by
that call with the message it sends.  Returns the sender and the queue after
the whole sequence, or none as soon as one call panics or fails. -/
def sendAll (s : Sender) (queue : List (Instant × MessageData)) :
    List (Instant × MessageData) → Option (Sender × List (Instant × MessageData))
  | [] => some (s, queue)
  | (now, msg) :: rest =>
    match s.send now true queue msg with
    | some (Except.ok (), s2, queue2) => sendAll s2 queue2 rest
    | _ => none

/-- Iterated Receiver::recv with the sender alive: one call per clock
reading in nows, collecting the payloads returned; stops if a call blocks
or fails. -/
def recvAll (r : Receiver) : List Instant → List (Instant × MessageData) → List MessageData
  | [], _ => []
  | now :: nows, queue =>
    match r.recv now true queue with
    | some (Except.ok (msg, _), rest) => msg :: recvAll r nows rest
    | _ => []

/-- A 500-byte message, the payload of the spec's concrete scenario B. -/
def payload500 : MessageData := List.replicate 500 0

/-- C1: a send with the receiver alive (and a well-defined bandwidth, i.e.
not the zero bandwidth on which the delay division panics, cf. C10) computes
the transmission delay of the spec (zero when bandwidth is unset,
size / bandwidth seconds when set), departs at max(now, next_time) plus that
delay, enqueues the (departure_time, payload) envelope at the tail of the
channel, and on success updates next_time to the departure time. -/
theorem send_spec (s : Sender) (now : Instant) (q : List (Instant × MessageData))
    (msg : MessageData) (h : s.bandwidth ≠ some 0) :
    Sender.send s now true q msg =
      some (Except.ok (),
        { s with next_time := max now s.next_time + specTransmissionDelay s.bandwidth msg.length },
        q ++ [(max now s.next_time + specTransmissionDelay s.bandwidth msg.length, msg)]) := by
  cases hb : s.bandwidth with
  | none => simp [Sender.send, specTransmissionDelay, hb]
  | some bw =>
    have hbw : bw ≠ 0 := by
      intro h0
      exact h (by rw [hb, h0])
    simp [Sender.send, specTransmissionDelay, durationFromSecsF64Div, hb, hbw]

/-- Witness for send_spec at a concrete input: bandwidth 2 bytes/sec, a
4-byte message sent at clock reading 0 on a fresh sender. -/
theorem send_spec_witness :
    ({ bandwidth := some 2, next_time := 0 } : Sender).bandwidth ≠ some 0 ∧
    Sender.send { bandwidth := some 2, next_time := 0 } 0 true []
        (List.replicate 4 0) =
      some (Except.ok (),
        { bandwidth := some 2,
          next_time := max 0 (0 : ℚ) +
            specTransmissionDelay (some 2) (List.replicate 4 (0 : Fin 256)).length },
        [] ++ [(max 0 (0 : ℚ) +
            specTransmissionDelay (some 2) (List.replicate 4 (0 : Fin 256)).length,
          List.replicate 4 0)]) :=
  ⟨by decide, send_spec { bandwidth := some 2, next_time := 0 } 0 []
    (List.replicate 4 0) (by decide)⟩

/-- C3: a recv that dequeues an envelope applies the latency in effect on
the receiver at the moment of dequeue: the arrival time is the envelope's
scheduled time plus the latency when set (plus zero when unset), the call
completes once the clock reaches the arrival time (immediately when it is
already past, hence at max now arrival_time), and the envelope's payload is
returned, the rest of the queue being left behind.  The second conjunct
makes the at-dequeue-time point explicit: after with_latency l, a dequeue
uses l whatever latency was in effect when the envelope was sent. -/
theorem recv_spec (r : Receiver) (now t : Instant) (msg : MessageData)
    (rest : List (Instant × MessageData)) (alive : Bool) (l : Duration) :
    Receiver.recv r now alive ((t, msg) :: rest) =
      some (Except.ok (msg, max now (specArrival r.latency t)), rest) ∧
    Receiver.recv (Receiver.with_latency r l) now alive ((t, msg) :: rest) =
      some (Except.ok (msg, max now (specArrival (some l) t)), rest) := by
  constructor
  · cases hl : r.latency with
    | none => simp [Receiver.recv, specArrival, hl]
    | some l2 => simp [Receiver.recv, specArrival, hl]
  · simp [Receiver.recv, Receiver.with_latency, specArrival]

/-- C4 counterexample: the transmission cost is not decoupled from the
payload's real encoded size.  send takes no size argument: with bandwidth
2 bytes/sec and identical sender state, a 4-byte payload departs at 2 s
while a 6-byte payload departs at 3 s, so the delay is determined by — and
varies with — the payload's actual byte length, and no independently
supplied size exists that could make two sends of one fixed payload differ. -/
theorem send_size_coupled_cex :
    Sender.send { bandwidth := some 2, next_time := 0 } 0 true []
        (List.replicate 4 0) =
      some (Except.ok (), { bandwidth := some 2, next_time := 2 },
        [((2 : ℚ), List.replicate 4 0)]) ∧
    Sender.send { bandwidth := some 2, next_time := 0 } 0 true []
        (List.replicate 6 0) =
      some (Except.ok (), { bandwidth := some 2, next_time := 3 },
        [((3 : ℚ), List.replicate 6 0)]) ∧
    (2 : ℚ) ≠ 3 := by
  refine ⟨?_, ?_, by norm_num⟩
  · simp [Sender.send, durationFromSecsF64Div]
    norm_num
  · simp [Sender.send, durationFromSecsF64Div]
    norm_num

/-- C4 amended: send determines the simulated size from the payload itself,
as msg.len(): with a set nonzero bandwidth the transmission delay is the
payload's actual byte length divided by the bandwidth, so the simulated
transmission cost is coupled to the payload's real encoded size, and two
payloads of equal length always incur the same delay. -/
theorem send_size_is_len (bw : Bandwidth) (nt now : Instant)
    (q : List (Instant × MessageData)) (msg msg2 : MessageData) (h : bw ≠ 0) :
    Sender.send { bandwidth := some bw, next_time := nt } now true q msg =
      some (Except.ok (),
        { bandwidth := some bw, next_time := max now nt + (msg.length : ℚ) / (bw : ℚ) },
        q ++ [(max now nt + (msg.length : ℚ) / (bw : ℚ), msg)]) ∧
    (msg.length = msg2.length →
      (Sender.send { bandwidth := some bw, next_time := nt } now true q msg).map
          (fun out => out.2.1.next_time) =
        (Sender.send { bandwidth := some bw, next_time := nt } now true q msg2).map
          (fun out => out.2.1.next_time)) := by
  constructor
  · simp [Sender.send, durationFromSecsF64Div, h]
  · intro hlen
    simp [Sender.send, durationFromSecsF64Div, h, hlen]

/-- Witness for send_size_is_len: bandwidth 2, two distinct 4-byte payloads. -/
theorem send_size_is_len_witness :
    (2 : ℕ) ≠ 0 ∧
    (Sender.send { bandwidth := some 2, next_time := 0 } 0 true []
        (List.replicate 4 0) =
      some (Except.ok (),
        { bandwidth := some 2,
          next_time := max 0 (0 : ℚ) + ((List.replicate 4 (0 : Fin 256)).length : ℚ) / (2 : ℚ) },
        [] ++ [(max 0 (0 : ℚ) + ((List.replicate 4 (0 : Fin 256)).length : ℚ) / (2 : ℚ),
          List.replicate 4 0)]) ∧
    ((List.replicate 4 (0 : Fin 256)).length = (List.replicate 4 (1 : Fin 256)).length →
      (Sender.send { bandwidth := some 2, next_time := 0 } 0 true []
          (List.replicate 4 (0 : Fin 256))).map (fun out => out.2.1.next_time) =
        (Sender.send { bandwidth := some 2, next_time := 0 } 0 true []
          (List.replicate 4 (1 : Fin 256))).map (fun out => out.2.1.next_time))) :=
  ⟨by decide, send_size_is_len 2 0 0 [] (List.replicate 4 0) (List.replicate 4 1) (by decide)⟩

/-- C5 at its failing input: with_bandwidth performs no validation, so
setting the bandwidth to 0 on a fresh sender succeeds and stores Some(0)
instead of failing or refusing the value; the error only surfaces later,
when the next send panics in Duration::from_secs_f64 on the non-finite
quotient (here on a 1-byte message at clock reading 0). -/
theorem with_bandwidth_zero_accepted :
    (Sender.with_bandwidth { bandwidth := none, next_time := 0 } 0).bandwidth = some 0 ∧
    Sender.send (Sender.with_bandwidth { bandwidth := none, next_time := 0 } 0) 0 true []
        (List.replicate 1 0) = none := by
  constructor
  · decide
  · simp [Sender.send, Sender.with_bandwidth, durationFromSecsF64Div]

/-- C7: when a send fails because the counterpart Receiver has been
discarded (and the call does not panic first in the delay computation, i.e.
the bandwidth is not the zero value of C10), it returns the LinkClosed
error, next_time is left unmodified — the whole sender is unchanged — and
nothing is enqueued. -/
theorem send_closed (s : Sender) (now : Instant) (q : List (Instant × MessageData))
    (msg : MessageData) (h : s.bandwidth ≠ some 0) :
    Sender.send s now false q msg =
      some (Except.error LinkError.linkClosed, s, q) := by
  cases hb : s.bandwidth with
  | none => simp [Sender.send, hb]
  | some bw =>
    have hbw : bw ≠ 0 := by
      intro h0
      exact h (by rw [hb, h0])
    simp [Sender.send, durationFromSecsF64Div, hb, hbw]

/-- Witness for send_closed: a fresh unconstrained sender whose receiver was
dropped, sending a 3-byte message at clock reading 5. -/
theorem send_closed_witness :
    ({ bandwidth := none, next_time := 0 } : Sender).bandwidth ≠ some 0 ∧
    Sender.send { bandwidth := none, next_time := 0 } 5 false [] (List.replicate 3 0) =
      some (Except.error LinkError.linkClosed, { bandwidth := none, next_time := 0 }, []) :=
  ⟨by decide, send_closed { bandwidth := none, next_time := 0 } 5 [] (List.replicate 3 0)
    (by decide)⟩

/-- C10: once the bandwidth has been set to 0, every send panics instead of
returning an outcome: the f64 quotient msg.len() / 0 is infinite or NaN and
Duration::from_secs_f64 panics on it, so neither the Ok nor the Err result
of send is ever produced on this path, whatever the message, the clock
reading, the queue, or the liveness of the receiver. -/
theorem send_zero_bandwidth_panics (s : Sender) (now : Instant) (alive : Bool)
    (q : List (Instant × MessageData)) (msg : MessageData) (h : s.bandwidth = some 0) :
    Sender.send s now alive q msg = none := by
  simp [Sender.send, durationFromSecsF64Div, h]

/-- Witness for send_zero_bandwidth_panics: a sender configured with
bandwidth 0 panics sending an empty message at clock reading 0. -/
theorem send_zero_bandwidth_panics_witness :
    ({ bandwidth := some 0, next_time := 0 } : Sender).bandwidth = some 0 ∧
    Sender.send { bandwidth := some 0, next_time := 0 } 0 true [] [] = none :=
  ⟨by decide, send_zero_bandwidth_panics { bandwidth := some 0, next_time := 0 } 0 true [] []
    (by decide)⟩

lemma specTransmissionDelay_nonneg (b : Option Bandwidth) (n : ℕ) :
    0 ≤ specTransmissionDelay b n := by
  cases b with
  | none => simp [specTransmissionDelay]
  | some bw =>
    simp only [specTransmissionDelay]
    exact div_nonneg (Nat.cast_nonneg _) (Nat.cast_nonneg _)

lemma send_true_eq (s : Sender) (now : Instant) (q : List (Instant × MessageData))
    (msg : MessageData) (h : s.bandwidth ≠ some 0) :
    Sender.send s now true q msg =
      some (Except.ok (),
        { s with next_time := max now s.next_time + specTransmissionDelay s.bandwidth msg.length },
        q ++ [(max now s.next_time + specTransmissionDelay s.bandwidth msg.length, msg)]) := by
  cases hb : s.bandwidth with
  | none => simp [Sender.send, specTransmissionDelay, hb]
  | some bw =>
    have hbw : bw ≠ 0 := by
      intro h0
      exact h (by rw [hb, h0])
    simp [Sender.send, specTransmissionDelay, durationFromSecsF64Div, hb, hbw]

lemma send_ok_destruct (s s2 : Sender) (now : Instant)
    (q q2 : List (Instant × MessageData)) (msg : MessageData) (out : Except LinkError Unit)
    (h : Sender.send s now true q msg = some (out, s2, q2)) :
    out = Except.ok () ∧ s2.bandwidth = s.bandwidth ∧
    q2 = q ++ [(s2.next_time, msg)] ∧ s.next_time ≤ s2.next_time := by
  have hb0 : s.bandwidth ≠ some 0 := by
    intro hb
    simp [Sender.send, hb, durationFromSecsF64Div] at h
  rw [send_true_eq s now q msg hb0] at h
  simp only [Option.some.injEq, Prod.mk.injEq] at h
  obtain ⟨hout, hs2, hq2⟩ := h
  subst hs2
  refine ⟨hout.symm, rfl, hq2.symm, ?_⟩
  calc s.next_time ≤ max now s.next_time := le_max_right now s.next_time
    _ ≤ max now s.next_time + specTransmissionDelay s.bandwidth msg.length :=
        le_add_of_nonneg_right (specTransmissionDelay_nonneg s.bandwidth msg.length)

lemma sendAll_payloads :
    ∀ (sends : List (Instant × MessageData)) (s s2 : Sender)
      (q q2 : List (Instant × MessageData)),
      sendAll s q sends = some (s2, q2) →
      q2.map Prod.snd = q.map Prod.snd ++ sends.map Prod.snd ∧
      s.next_time ≤ s2.next_time
  | [], s, s2, q, q2, h => by
    simp only [sendAll, Option.some.injEq, Prod.mk.injEq] at h
    obtain ⟨hs, hq⟩ := h
    subst hs
    subst hq
    simp
  | (now, msg) :: rest, s, s2, q, q2, h => by
    rw [sendAll] at h
    cases hsend : Sender.send s now true q msg with
    | none => rw [hsend] at h; exact absurd h (by simp)
    | some out3 =>
      obtain ⟨out, s3, q3⟩ := out3
      obtain ⟨hout, -, hq3, hle⟩ := send_ok_destruct s s3 now q q3 msg out hsend
      subst hout
      rw [hsend] at h
      have h3 : sendAll s3 q3 rest = some (s2, q2) := h
      obtain ⟨hpay, hle2⟩ := sendAll_payloads rest s3 s2 q3 q2 h3
      refine ⟨?_, le_trans hle hle2⟩
      rw [hpay, hq3]
      simp

lemma sendAll_chain :
    ∀ (sends : List (Instant × MessageData)) (s s2 : Sender)
      (q q2 : List (Instant × MessageData)),
      sendAll s q sends = some (s2, q2) →
      List.Chain' (fun a b => a ≤ b) (q.map Prod.fst) →
      (∀ e ∈ q, e.1 ≤ s.next_time) →
      List.Chain' (fun a b => a ≤ b) (q2.map Prod.fst) ∧
      ∀ e ∈ q2, e.1 ≤ s2.next_time
  | [], s, s2, q, q2, h, hchain, hbound => by
    simp only [sendAll, Option.some.injEq, Prod.mk.injEq] at h
    obtain ⟨hs, hq⟩ := h
    subst hs
    subst hq
    exact ⟨hchain, hbound⟩
  | (now, msg) :: rest, s, s2, q, q2, h, hchain, hbound => by
    rw [sendAll] at h
    cases hsend : Sender.send s now true q msg with
    | none => rw [hsend] at h; exact absurd h (by simp)
    | some out3 =>
      obtain ⟨out, s3, q3⟩ := out3
      obtain ⟨hout, -, hq3, hle⟩ := send_ok_destruct s s3 now q q3 msg out hsend
      subst hout
      rw [hsend] at h
      have h3 : sendAll s3 q3 rest = some (s2, q2) := h
      have hchain3 : List.Chain' (fun a b => a ≤ b) (q3.map Prod.fst) := by
        rw [hq3, List.map_append]
        refine List.Chain'.append hchain (by simp) ?_
        intro x hx y hy
        simp only [List.map_cons, List.map_nil, List.head?_cons, Option.mem_def,
          Option.some.injEq] at hy
        subst hy
        obtain ⟨hne, hxl⟩ := List.mem_getLast?_eq_getLast hx
        have hxmem : x ∈ q.map Prod.fst := hxl ▸ List.getLast_mem hne
        obtain ⟨e, he, hex⟩ := List.mem_map.mp hxmem
        calc x = e.1 := hex.symm
          _ ≤ s.next_time := hbound e he
          _ ≤ s3.next_time := hle
      have hbound3 : ∀ e ∈ q3, e.1 ≤ s3.next_time := by
        intro e he
        rw [hq3] at he
        rcases List.mem_append.mp he with hin | hin
        · exact le_trans (hbound e hin) hle
        · simp only [List.mem_singleton] at hin
          subst hin
          exact le_refl _
      exact sendAll_chain rest s3 s2 q3 q2 h3 hchain3 hbound3

lemma recvAll_map :
    ∀ (q : List (Instant × MessageData)) (nows : List Instant) (r : Receiver),
      nows.length = q.length →
      recvAll r nows q = q.map Prod.snd
  | [], nows, r, hlen => by
    cases nows with
    | nil => simp [recvAll]
    | cons a l => exact absurd hlen (by simp)
  | (t, m) :: rest, nows, r, hlen => by
    cases nows with
    | nil => exact absurd hlen (by simp)
    | cons now nows2 =>
      have hlen2 : nows2.length = rest.length := by
        simpa using hlen
      simp only [recvAll, Receiver.recv]
      rw [recvAll_map rest nows2 r hlen2]
      simp

/-- C2: FIFO delivery.  For any sequence of payloads pushed by one Sender
onto the initially empty channel (at arbitrary clock readings), a matching
number of recv calls on the paired Receiver (at arbitrary clock readings,
with any latency configuration) returns exactly those payloads, in send
order: no reordering, no duplication, no loss while both handles are alive. -/
theorem fifo_order (s s2 : Sender) (r : Receiver)
    (sends : List (Instant × MessageData)) (nows : List Instant)
    (q : List (Instant × MessageData))
    (hsend : sendAll s [] sends = some (s2, q))
    (hlen : nows.length = sends.length) :
    recvAll r nows q = sends.map Prod.snd := by
  obtain ⟨hpay, -⟩ := sendAll_payloads sends s s2 [] q hsend
  have hql : nows.length = q.length := by
    have hq : q.length = sends.length := by
      have hml := congrArg List.length hpay
      simpa using hml
    rw [hlen, hq]
  rw [recvAll_map q nows r hql]
  simpa using hpay

/-- Witness for fifo_order: two one-byte payloads sent at clock reading 0 on
an unconstrained sender are received in send order by two recv calls. -/
theorem fifo_order_witness :
    sendAll { bandwidth := none, next_time := 0 } []
        [((0 : ℚ), [(0 : Fin 256)]), ((0 : ℚ), [(1 : Fin 256)])] =
      some ({ bandwidth := none, next_time := 0 },
        [((0 : ℚ), [(0 : Fin 256)]), ((0 : ℚ), [(1 : Fin 256)])]) ∧
    ([(0 : ℚ), (0 : ℚ)] : List Instant).length =
      ([((0 : ℚ), [(0 : Fin 256)]), ((0 : ℚ), [(1 : Fin 256)])] :
        List (Instant × MessageData)).length ∧
    recvAll { latency := none } [(0 : ℚ), (0 : ℚ)]
        [((0 : ℚ), [(0 : Fin 256)]), ((0 : ℚ), [(1 : Fin 256)])] =
      ([((0 : ℚ), [(0 : Fin 256)]), ((0 : ℚ), [(1 : Fin 256)])] :
        List (Instant × MessageData)).map Prod.snd :=
  ⟨by simp [sendAll, Sender.send], by decide,
    fifo_order { bandwidth := none, next_time := 0 } { bandwidth := none, next_time := 0 }
      { latency := none }
      [((0 : ℚ), [(0 : Fin 256)]), ((0 : ℚ), [(1 : Fin 256)])]
      [(0 : ℚ), (0 : ℚ)]
      [((0 : ℚ), [(0 : Fin 256)]), ((0 : ℚ), [(1 : Fin 256)])]
      (by simp [sendAll, Sender.send]) (by decide)⟩

/-- C6: across any sequence of successful sends on one Sender starting from
an empty channel, next_time never decreases, and the scheduled departure
times of the envelopes sitting in the channel are non-decreasing in FIFO
order: no envelope departs before an earlier one queued on the same Sender. -/
theorem next_time_monotone (s s2 : Sender)
    (sends q : List (Instant × MessageData))
    (h : sendAll s [] sends = some (s2, q)) :
    s.next_time ≤ s2.next_time ∧
    List.Chain' (fun a b => a ≤ b) (q.map Prod.fst) := by
  obtain ⟨-, hmono⟩ := sendAll_payloads sends s s2 [] q h
  obtain ⟨hchain, -⟩ := sendAll_chain sends s s2 [] q h (by simp) (by simp)
  exact ⟨hmono, hchain⟩

/-- Witness for next_time_monotone: bandwidth 1 byte/sec, a 1-byte then a
2-byte message sent at clock reading 0 depart at 1 s and 3 s. -/
theorem next_time_monotone_witness :
    sendAll { bandwidth := some 1, next_time := 0 } []
        [((0 : ℚ), [(0 : Fin 256)]), ((0 : ℚ), [(0 : Fin 256), (0 : Fin 256)])] =
      some ({ bandwidth := some 1, next_time := 3 },
        [((1 : ℚ), [(0 : Fin 256)]), ((3 : ℚ), [(0 : Fin 256), (0 : Fin 256)])]) ∧
    ({ bandwidth := some 1, next_time := 0 } : Sender).next_time ≤
      ({ bandwidth := some 1, next_time := 3 } : Sender).next_time ∧
    List.Chain' (fun a b => a ≤ b)
      (([((1 : ℚ), [(0 : Fin 256)]), ((3 : ℚ), [(0 : Fin 256), (0 : Fin 256)])] :
        List (Instant × MessageData)).map Prod.fst) :=
  ⟨by norm_num [sendAll, Sender.send, durationFromSecsF64Div],
    next_time_monotone { bandwidth := some 1, next_time := 0 }
      { bandwidth := some 1, next_time := 3 }
      [((0 : ℚ), [(0 : Fin 256)]), ((0 : ℚ), [(0 : Fin 256), (0 : Fin 256)])]
      [((1 : ℚ), [(0 : Fin 256)]), ((3 : ℚ), [(0 : Fin 256), (0 : Fin 256)])]
      (by norm_num [sendAll, Sender.send, durationFromSecsF64Div])⟩

/-- C8: reconfiguration only affects later operations.  Setting a (nonzero)
bandwidth leaves next_time alone, and a send after it appends one envelope,
priced at the new bandwidth, at the tail of the queue while every
already-enqueued envelope — the prefix q, departure times included — is
unchanged; setting a latency makes exactly the recv calls issued after it
apply the new value, an envelope dequeued after the call arriving at its
scheduled time plus the new latency (a recv completed before the call
returned a fixed value that no later setter call can alter). -/
theorem reconfig_frame (s : Sender) (bw : Bandwidth) (r : Receiver) (l : Duration)
    (now t : Instant) (q rest : List (Instant × MessageData))
    (msg m : MessageData) (alive : Bool) (h : bw ≠ 0) :
    (Sender.with_bandwidth s bw).next_time = s.next_time ∧
    Sender.send (Sender.with_bandwidth s bw) now true q msg =
      some (Except.ok (),
        { bandwidth := some bw,
          next_time := max now s.next_time + (msg.length : ℚ) / (bw : ℚ) },
        q ++ [(max now s.next_time + (msg.length : ℚ) / (bw : ℚ), msg)]) ∧
    Receiver.recv (Receiver.with_latency r l) now alive ((t, m) :: rest) =
      some (Except.ok (m, max now (t + l)), rest) := by
  refine ⟨rfl, ?_, ?_⟩
  · simp [Sender.send, Sender.with_bandwidth, durationFromSecsF64Div, h]
  · simp [Receiver.recv, Receiver.with_latency]

/-- Witness for reconfig_frame: bandwidth reset to 4 on a sender busy until
time 2, with one envelope already enqueued; latency reset to 3 on the
receiver before dequeuing an envelope scheduled at time 2. -/
theorem reconfig_frame_witness :
    (Sender.with_bandwidth { bandwidth := some 1, next_time := 2 } 4).next_time =
      ({ bandwidth := some 1, next_time := 2 } : Sender).next_time ∧
    Sender.send (Sender.with_bandwidth { bandwidth := some 1, next_time := 2 } 4) 0 true
        [((2 : ℚ), [(7 : Fin 256)])] (List.replicate 8 0) =
      some (Except.ok (),
        { bandwidth := some 4,
          next_time := max 0 (2 : ℚ) + ((List.replicate 8 (0 : Fin 256)).length : ℚ) / (4 : ℚ) },
        [((2 : ℚ), [(7 : Fin 256)])] ++
          [(max 0 (2 : ℚ) + ((List.replicate 8 (0 : Fin 256)).length : ℚ) / (4 : ℚ),
            List.replicate 8 0)]) ∧
    Receiver.recv (Receiver.with_latency { latency := none } 3) 0 true
        [((2 : ℚ), [(9 : Fin 256)])] =
      some (Except.ok ([(9 : Fin 256)], max 0 ((2 : ℚ) + 3)), []) :=
  reconfig_frame { bandwidth := some 1, next_time := 2 } 4 { latency := none } 3 0 2
    [((2 : ℚ), [(7 : Fin 256)])] [] (List.replicate 8 0) [(9 : Fin 256)] true (by decide)

/-- C9: concrete scenario B.  On a link created at clock reading 0 with
bandwidth 1000 bytes/sec and latency unset, two sends of a 500-byte payload
issued at 0 enqueue envelopes departing at 0.5 s and 1.0 s, the first recv
(called at 0) completes at 0.5 s, and the second (called at 0.5 when the
first completes) completes at 1.0 s, each returning the payload. -/
theorem scenario_b :
    Sender.send (Sender.with_bandwidth (channel 0).1 1000) 0 true [] payload500 =
      some (Except.ok (), { bandwidth := some 1000, next_time := 1/2 },
        [((1/2 : ℚ), payload500)]) ∧
    Sender.send { bandwidth := some 1000, next_time := 1/2 } 0 true
        [((1/2 : ℚ), payload500)] payload500 =
      some (Except.ok (), { bandwidth := some 1000, next_time := 1 },
        [((1/2 : ℚ), payload500), ((1 : ℚ), payload500)]) ∧
    Receiver.recv (channel 0).2 0 true [((1/2 : ℚ), payload500), ((1 : ℚ), payload500)] =
      some (Except.ok (payload500, 1/2), [((1 : ℚ), payload500)]) ∧
    Receiver.recv (channel 0).2 (1/2) true [((1 : ℚ), payload500)] =
      some (Except.ok (payload500, 1), []) := by
  have h12 : max (0 : ℚ) (1/2) = 1/2 := max_eq_right (by norm_num)
  have h121 : max ((1 : ℚ)/2) 1 = 1 := max_eq_right (by norm_num)
  refine ⟨?_, ?_, ?_, ?_⟩
  · norm_num [Sender.send, Sender.with_bandwidth, channel, durationFromSecsF64Div, payload500]
  · norm_num [Sender.send, durationFromSecsF64Div, payload500, h12]
  · simp [Receiver.recv, channel, h12]
  · simp only [Receiver.recv, channel]
    rw [h121]
